import Mathlib

/-!
Verification of the trial-coordination subsystem of `ssh_password_tester.py`
(class `StealthSSHTester`) against its natural-language specification.

The SQLite table `attempts (password TEXT PRIMARY KEY, status TEXT,
timestamp DATETIME, error TEXT)` is modelled as a list of records whose
`password` fields are pairwise distinct; `INSERT OR REPLACE` is modelled by
`upsert`, which removes any record with the same key and prepends the new one.
Wall-clock timestamps are modelled as an opaque `Nat` supplied by the caller.
-/

namespace StealthSSH

/-- The three values the `status` column takes in the source:
`'success'`, `'failed'` (authentication failed), `'error'` (probe error). -/
inductive Status
  | success
  | failed
  | error
  deriving DecidableEq, Repr

/-- One row of the `attempts` table. -/
structure AttemptRecord where
  password : String
  status : Status
  timestamp : Nat
  detail : Option String
  deriving DecidableEq, Repr

/-- The `attempts` table: a list of rows.  The PRIMARY KEY constraint is the
predicate `KeyUnique` below; every write in the source goes through
`INSERT OR REPLACE`, modelled by `upsert`. -/
abbrev Ledger := List AttemptRecord

/-- The list of `password` keys of the table. -/
def Ledger.keys (l : Ledger) : List String :=
  l.map (fun r => r.password)

/-- The PRIMARY KEY constraint of `init_database`: at most one row per
`password`. -/
def KeyUnique (l : Ledger) : Prop :=
  l.keys.Nodup

instance (l : Ledger) : Decidable (KeyUnique l) := by
  unfold KeyUnique
  infer_instance

/-- `SELECT status FROM attempts WHERE password = ?` (point lookup, whole row
in the model). -/
def lookup (l : Ledger) (password : String) : Option AttemptRecord :=
  l.find? (fun r => r.password = password)

/-- `INSERT OR REPLACE INTO attempts ...`: any existing row with the same key
is replaced by the new row. -/
def upsert (l : Ledger) (r : AttemptRecord) : Ledger :=
  r :: l.filter (fun x => x.password ≠ r.password)

/-- `SELECT password FROM attempts` — the set of already-attempted
credentials used by the resume filter (`listAttempted` in the spec). -/
def listAttempted (l : Ledger) : List String :=
  l.keys

/-- `SELECT password FROM attempts WHERE status = 'success'` (`fetchone`):
the credential of some Success record, if any (`findSuccess` in the spec). -/
def findSuccess (l : Ledger) : Option String :=
  (l.find? (fun r => r.status = Status.success)).map (fun r => r.password)

/-- Outcome of one `ssh.connect` call: session established, paramiko
`AuthenticationException`, or any other exception with its message. -/
inductive ProbeOutcome
  | ok
  | authFail
  | probeError (detail : String)
  deriving DecidableEq, Repr

/-- The tuple `(password, success, error)` returned by `test_password`. -/
structure AttemptResult where
  password : String
  success : Bool
  detail : Option String
  deriving DecidableEq, Repr

/-- The mutable fields of `StealthSSHTester` that the coordination logic
reads and writes: `self.found_password`, `self.consecutive_failures` and the
ledger behind `self.progress_db`. -/
structure TesterState where
  found_password : Option String
  consecutive_failures : Nat
  ledger : Ledger
  deriving DecidableEq

/-- Fault model for the ledger writes of one `test_password` call:
`firstFails` makes the branch's own `INSERT OR REPLACE` raise,
`handlerFails` makes the recovery write inside `except Exception` raise too,
and `failMsg` is `str(e)` of the raised write exception. -/
structure WriteBehavior where
  firstFails : Bool
  handlerFails : Bool
  failMsg : String
  deriving DecidableEq, Repr

/-- The fault-free write behaviour. -/
def noFault : WriteBehavior :=
  ⟨false, false, ""⟩

/-- The two uniform ranges `random.uniform` draws from in `simulate_delay`,
in seconds as rationals: `(1.0, 2.0)` when `consecutive_failures > 5`,
`(0.1, 0.5)` otherwise. -/
def simulate_delay_range (consecutive_failures : Nat) : ℚ × ℚ :=
  if consecutive_failures > 5 then (1, 2) else (1/10, 1/2)

/-- Shallow embedding of `StealthSSHTester.test_password`, executed by one
worker.  Returns the successor state, `some` returned tuple (or `none` when
an exception escapes the call, which happens only when a ledger write and
its recovery both fail), and a flag recording whether `ssh.connect` was
actually invoked (probe dispatched).  The `outcome` argument stands for the
external `ssh.connect` result for this credential; `now` for
`datetime.now()`.  Mirrors the source:
line 82 early return when `found_password` is set; lines 87‑94 the
pre-dispatch ledger lookup (Success record sets `found_password`, any other
record is skipped as already tried); line 96 the throttle delay; lines
101‑119 the success path (set `found_password`, reset
`consecutive_failures`, write a Success row with no error detail); lines
121‑127 the `AuthenticationException` handler (write a failed row with
detail `"Autenticação falhou"`); lines 129‑137 the generic handler
(increment `consecutive_failures`, write an error row with `str(e)`). -/
def test_password (st : TesterState) (password : String) (outcome : ProbeOutcome)
    (now : Nat) (wb : WriteBehavior) :
    TesterState × Option AttemptResult × Bool :=
  if st.found_password.isSome then
    (st, some ⟨password, false, none⟩, false)
  else
    match lookup st.ledger password with
    | some r =>
      if r.status = Status.success then
        ({ st with found_password := some password }, some ⟨password, true, none⟩, false)
      else
        (st, some ⟨password, false, some "Já tentado"⟩, false)
    | none =>
      match outcome with
      | ProbeOutcome.ok =>
        let st1 : TesterState :=
          { st with found_password := some password, consecutive_failures := 0 }
        if wb.firstFails then
          let st2 : TesterState :=
            { st1 with consecutive_failures := st1.consecutive_failures + 1 }
          if wb.handlerFails then
            (st2, none, true)
          else
            ({ st2 with
                ledger := upsert st2.ledger ⟨password, Status.error, now, some wb.failMsg⟩ },
             some ⟨password, false, some wb.failMsg⟩, true)
        else
          ({ st1 with
              ledger := upsert st1.ledger ⟨password, Status.success, now, none⟩ },
           some ⟨password, true, none⟩, true)
      | ProbeOutcome.authFail =>
        if wb.firstFails then
          (st, none, true)
        else
          ({ st with
              ledger := upsert st.ledger
                ⟨password, Status.failed, now, some "Autenticação falhou"⟩ },
           some ⟨password, false, some "Autenticação falhou"⟩, true)
      | ProbeOutcome.probeError d =>
        let st1 : TesterState :=
          { st with consecutive_failures := st.consecutive_failures + 1 }
        if wb.firstFails then
          (st1, none, true)
        else
          ({ st1 with ledger := upsert st1.ledger ⟨password, Status.error, now, some d⟩ },
           some ⟨password, false, some d⟩, true)

/-! ### The coordinator, `StealthSSHTester.test_passwords_stealth`

The worker pool is modelled sequentially: each submitted future runs
`test_password` at submission time, and `as_completed` is modelled as
delivering results in submission order.  The submission loop (source lines
213‑219) checks `self.found_password` before each dispatch; the drain loop
(lines 221‑234) checks it before consuming each result.  A future whose
`test_password` call raised is a `none` entry: calling `future.result()` on
it re-raises, turning the run into an `Except.error`. -/

/-- The submission loop (lines 213‑219).  Returns the state after all
submitted calls, the list of futures (in submission order), and the number
of probes actually dispatched (`ssh.connect` calls). -/
def submitLoop (outcome : String → ProbeOutcome) (wb : String → WriteBehavior)
    (now : Nat) :
    TesterState → List String → TesterState × List (Option AttemptResult) × Nat
  | st, [] => (st, [], 0)
  | st, p :: rest =>
    if st.found_password.isSome then
      (st, [], 0)
    else
      match test_password st p (outcome p) now (wb p) with
      | (st1, r, dispatched) =>
        match submitLoop outcome wb now st1 rest with
        | (st2, rs, n) => (st2, r :: rs, n + (if dispatched then 1 else 0))

/-- The drain loop over `as_completed(futures)` (lines 221‑234).  Returns
the final state and the local `found_password` variable; errors when
`future.result()` re-raises an exception from a worker. -/
def drainLoop : TesterState → List (Option AttemptResult) →
    Except String (TesterState × Option String)
  | st, [] => Except.ok (st, none)
  | st, f :: rest =>
    if st.found_password.isSome then
      Except.ok (st, st.found_password)
    else
      match f with
      | none => Except.error "exception re-raised by future.result"
      | some r =>
        if r.success then
          Except.ok ({ st with found_password := some r.password }, some r.password)
        else
          drainLoop st rest

/-- Submission loop followed by drain loop and the final
`return found_password or self.found_password` (line 246).  The `Nat` is
the number of dispatched probes. -/
def runCore (st : TesterState) (passwords : List String)
    (outcome : String → ProbeOutcome) (wb : String → WriteBehavior) (now : Nat) :
    Except String (TesterState × Option String × Nat) :=
  match submitLoop outcome wb now st passwords with
  | (st1, futures, n) =>
    match drainLoop st1 futures with
    | Except.error e => Except.error e
    | Except.ok (st2, localFound) =>
      Except.ok (st2,
        (match localFound with
         | some p => some p
         | none => st2.found_password), n)

/-- The resume filter of line 182:
`passwords = [p for p in passwords if p not in attempted]`. -/
def effectiveCandidates (l : Ledger) (passwords : List String) : List String :=
  passwords.filter (fun p => !(listAttempted l).contains p)

/-- Shallow embedding of `StealthSSHTester.test_passwords_stealth`
(lines 161‑246).  With `resume` set it first looks for a recorded Success
(lines 173‑181) and otherwise filters out already-attempted credentials
(lines 182‑186) before running the pool. -/
def test_passwords_stealth (st : TesterState) (passwords : List String)
    (resume : Bool) (outcome : String → ProbeOutcome)
    (wb : String → WriteBehavior) (now : Nat) :
    Except String (TesterState × Option String × Nat) :=
  if resume then
    match findSuccess st.ledger with
    | some p => Except.ok (st, some p, 0)
    | none =>
      let filtered := effectiveCandidates st.ledger passwords
      if filtered.isEmpty then Except.ok (st, none, 0)
      else runCore st filtered outcome wb now
  else
    runCore st passwords outcome wb now

/-! ### The `__main__` startup flow (lines 249‑276)

`config.json` is modelled by its readability flag and the two keys the
script reads with a raising `config[...]` access; `passwords.txt` by its
readability flag and line list; the ledger database by a readability flag
(a failing `sqlite3.connect` in `init_database` propagates out of the
constructor) and its persisted contents. -/

/-- A fresh `StealthSSHTester` over the persisted ledger contents. -/
def initTester (ledger0 : Ledger) : TesterState :=
  ⟨none, 0, ledger0⟩

/-- `true` exactly when the run died with an uncaught exception. -/
def isFatal {α : Type} : Except String α → Bool
  | Except.error _ => true
  | Except.ok _ => false

/-- Shallow embedding of the `__main__` block: open `config.json`, open
`passwords.txt`, construct `StealthSSHTester` (which opens the ledger
database), evaluate `config['server']` and `config['username']`, then call
`test_passwords_stealth`.  Any step's exception is fatal. -/
def main_flow (configReadable : Bool) (server username : Option String)
    (passwordsReadable : Bool) (passwords : List String)
    (ledgerReadable : Bool) (ledger0 : Ledger) (resume : Bool)
    (outcome : String → ProbeOutcome) (wb : String → WriteBehavior) (now : Nat) :
    Except String (Option String × Nat) :=
  if configReadable = false then Except.error "cannot open config.json"
  else if passwordsReadable = false then Except.error "cannot open passwords.txt"
  else if ledgerReadable = false then Except.error "sqlite3 cannot open ssh_progress.db"
  else
    match server with
    | none => Except.error "KeyError: server"
    | some _ =>
      match username with
      | none => Except.error "KeyError: username"
      | some _ =>
        match test_passwords_stealth (initTester ledger0) passwords resume outcome wb now with
        | Except.error e => Except.error e
        | Except.ok (_, res, n) => Except.ok (res, n)

/-- The spec's claim that every attempt record carries an error detail only
when its status is ProbeError (`'error'`). -/
def ErrorOnlyForProbeError (l : Ledger) : Prop :=
  ∀ r ∈ l, r.detail.isSome = true → r.status = Status.error

instance (l : Ledger) : Decidable (ErrorOnlyForProbeError l) := by
  unfold ErrorOnlyForProbeError
  infer_instance

/-- What the writes of `test_password` actually maintain: a record carries
an error detail exactly when its status is not Success (the
`AuthenticationException` handler writes `"Autenticação falhou"` as the
error of a failed record; only the success write leaves the column NULL). -/
def ErrorDetailMatchesStatus (l : Ledger) : Prop :=
  ∀ r ∈ l, (r.detail.isSome = true ↔ r.status ≠ Status.success)

instance (l : Ledger) : Decidable (ErrorDetailMatchesStatus l) := by
  unfold ErrorDetailMatchesStatus
  infer_instance

/-- The spec's claim C9: all three invalid startup inputs (missing target
key, empty candidate list, unreadable ledger database) abort the run. -/
def allStartupInputsFatal : Prop :=
  ∀ (server username : Option String) (passwords : List String)
    (ledgerReadable : Bool) (ledger0 : Ledger) (resume : Bool)
    (outcome : String → ProbeOutcome) (wb : String → WriteBehavior) (now : Nat),
    (server = none ∨ passwords = [] ∨ ledgerReadable = false) →
    isFatal (main_flow true server username true passwords
      ledgerReadable ledger0 resume outcome wb now) = true

/-- The spec's claim C7: durably recording an outcome can never crash the
run — for every candidate list, probe-outcome assignment and ledger-write
fault pattern, the pool run returns without an uncaught exception. -/
def writeFailureNeverCrashesRun : Prop :=
  ∀ (st : TesterState) (passwords : List String)
    (outcome : String → ProbeOutcome) (wb : String → WriteBehavior) (now : Nat),
    isFatal (runCore st passwords outcome wb now) = false

/-! ### Interleaving machine for two pool workers

`test_password` holds `self.connection_lock` from the dedup check through
the throttle sleep, the `ssh.connect` call and the success write (source
lines 86‑119); the two failure-path writes (lines 122‑126 and 130‑137) run
after the `with` block has released the lock while unwinding the exception.
Each program region below is one atomic step of one worker; two workers run
the same program on their own credential and probe outcome. -/

/-- Program counter of one worker through `test_password`. -/
inductive WPC
  | start
  | waitLock
  | atDedup
  | atDelay
  | atProbe
  | atWriteOk
  | atWriteFailRec
  | atWriteErrRec
  | finished (succeeded : Bool)
  deriving DecidableEq, Repr

/-- Machine parameters: each worker's credential and its probe outcome. -/
structure PoolParams where
  pw : Fin 2 → String
  outcome : Fin 2 → ProbeOutcome

/-- Shared machine state: `self.found_password`,
`self.consecutive_failures`, the ledger, the holder of
`self.connection_lock`, both program counters, and a ghost log of the
workers that executed `ssh.connect` (in order). -/
structure MState where
  found : Option String
  cf : Nat
  ledger : Ledger
  lockOwner : Option (Fin 2)
  pc : Fin 2 → WPC
  probes : List (Fin 2)

/-- Pointwise update of a program-counter assignment. -/
def updPC (f : Fin 2 → WPC) (i : Fin 2) (v : WPC) : Fin 2 → WPC :=
  fun j => if j = i then v else f j

/-- The `str(e)` detail of a probe-error outcome. -/
def outcomeDetail : ProbeOutcome → String
  | ProbeOutcome.probeError d => d
  | _ => ""

/-- One atomic step of worker `i`.  `acquire` is the only step guarded by
the lock; the Python worker never re-checks it afterwards, so mutual
exclusion of the locked regions is a theorem, not a side condition. -/
inductive Step (P : PoolParams) : MState → Fin 2 → MState → Prop
  | checkFoundSet (s : MState) (i : Fin 2) (c : String)
      (hpc : s.pc i = WPC.start) (hf : s.found = some c) :
      Step P s i { s with pc := updPC s.pc i (WPC.finished false) }
  | checkFoundClear (s : MState) (i : Fin 2)
      (hpc : s.pc i = WPC.start) (hf : s.found = none) :
      Step P s i { s with pc := updPC s.pc i WPC.waitLock }
  | acquire (s : MState) (i : Fin 2)
      (hpc : s.pc i = WPC.waitLock) (hl : s.lockOwner = none) :
      Step P s i { s with lockOwner := some i, pc := updPC s.pc i WPC.atDedup }
  | dedupSuccess (s : MState) (i : Fin 2) (r : AttemptRecord)
      (hpc : s.pc i = WPC.atDedup) (hr : lookup s.ledger (P.pw i) = some r)
      (hs : r.status = Status.success) :
      Step P s i { s with
        found := some (P.pw i)
        lockOwner := none
        pc := updPC s.pc i (WPC.finished true) }
  | dedupDuplicate (s : MState) (i : Fin 2) (r : AttemptRecord)
      (hpc : s.pc i = WPC.atDedup) (hr : lookup s.ledger (P.pw i) = some r)
      (hs : ¬ r.status = Status.success) :
      Step P s i { s with
        lockOwner := none
        pc := updPC s.pc i (WPC.finished false) }
  | dedupAbsent (s : MState) (i : Fin 2)
      (hpc : s.pc i = WPC.atDedup) (hr : lookup s.ledger (P.pw i) = none) :
      Step P s i { s with pc := updPC s.pc i WPC.atDelay }
  | delayDone (s : MState) (i : Fin 2)
      (hpc : s.pc i = WPC.atDelay) :
      Step P s i { s with pc := updPC s.pc i WPC.atProbe }
  | probeOk (s : MState) (i : Fin 2)
      (hpc : s.pc i = WPC.atProbe) (ho : P.outcome i = ProbeOutcome.ok) :
      Step P s i { s with
        found := some (P.pw i)
        cf := 0
        probes := s.probes ++ [i]
        pc := updPC s.pc i WPC.atWriteOk }
  | probeAuthFail (s : MState) (i : Fin 2)
      (hpc : s.pc i = WPC.atProbe) (ho : P.outcome i = ProbeOutcome.authFail) :
      Step P s i { s with
        lockOwner := none
        probes := s.probes ++ [i]
        pc := updPC s.pc i WPC.atWriteFailRec }
  | probeErr (s : MState) (i : Fin 2) (d : String)
      (hpc : s.pc i = WPC.atProbe)
      (ho : P.outcome i = ProbeOutcome.probeError d) :
      Step P s i { s with
        lockOwner := none
        probes := s.probes ++ [i]
        pc := updPC s.pc i WPC.atWriteErrRec }
  | writeOk (s : MState) (i : Fin 2)
      (hpc : s.pc i = WPC.atWriteOk) :
      Step P s i { s with
        ledger := upsert s.ledger ⟨P.pw i, Status.success, 0, none⟩
        lockOwner := none
        pc := updPC s.pc i (WPC.finished true) }
  | writeFailRec (s : MState) (i : Fin 2)
      (hpc : s.pc i = WPC.atWriteFailRec) :
      Step P s i { s with
        ledger := upsert s.ledger
          ⟨P.pw i, Status.failed, 0, some "Autenticação falhou"⟩
        pc := updPC s.pc i (WPC.finished false) }
  | writeErrRec (s : MState) (i : Fin 2)
      (hpc : s.pc i = WPC.atWriteErrRec) :
      Step P s i { s with
        cf := s.cf + 1
        ledger := upsert s.ledger
          ⟨P.pw i, Status.error, 0, some (outcomeDetail (P.outcome i))⟩
        pc := updPC s.pc i (WPC.finished false) }

/-- Both workers at the top of `test_password` over the persisted ledger. -/
def initMState (l0 : Ledger) : MState :=
  ⟨none, 0, l0, none, fun _ => WPC.start, []⟩

/-- States the two-worker pool can reach by interleaving atomic steps. -/
inductive Reachable (P : PoolParams) (l0 : Ledger) : MState → Prop
  | init : Reachable P l0 (initMState l0)
  | step {s s' : MState} {i : Fin 2} (h : Reachable P l0 s)
      (hs : Step P s i s') : Reachable P l0 s'

/-- Worker `i` can take some step from `s`. -/
def WorkerEnabled (P : PoolParams) (s : MState) (i : Fin 2) : Prop :=
  ∃ s', Step P s i s'

/-- The program counters at which the worker holds `connection_lock`. -/
def inLockedRegion : WPC → Bool
  | WPC.atDedup => true
  | WPC.atDelay => true
  | WPC.atProbe => true
  | WPC.atWriteOk => true
  | _ => false

/-- Whether a worker has returned from `test_password`. -/
def isFinishedPC : WPC → Bool
  | WPC.finished _ => true
  | _ => false

/-- Conjunct 1 of the claim: while a worker sits in the throttle delay,
every other unfinished worker can still take a step. -/
def DelayBlocksOnlyIssuer (P : PoolParams) (l0 : Ledger) : Prop :=
  ∀ s, Reachable P l0 s → ∀ i, s.pc i = WPC.atDelay →
    ∀ j, j ≠ i → isFinishedPC (s.pc j) = false → WorkerEnabled P s j

/-- Both workers passed the dedup check for the same credential before
either wrote its outcome back, and both probed it. -/
def DuplicateProbePossible (P : PoolParams) (l0 : Ledger) : Prop :=
  ∃ s, Reachable P l0 s ∧
    (0 : Fin 2) ∈ s.probes ∧ (1 : Fin 2) ∈ s.probes

/-- The spec's claim C10: the throttle delay never blocks the rest of the
pool, and two workers can both pass the dedup check for one credential and
probe it twice. -/
def throttleAndDedupClaim : Prop :=
  (∀ (P : PoolParams) (l0 : Ledger), DelayBlocksOnlyIssuer P l0) ∧
  (∃ (P : PoolParams) (l0 : Ledger), P.pw 0 = P.pw 1 ∧ DuplicateProbePossible P l0)

/-- Two workers on distinct credentials, both destined to fail
authentication. -/
def P0 : PoolParams :=
  ⟨fun i => if i = 0 then "a" else "b", fun _ => ProbeOutcome.authFail⟩

/-- Two workers on the same credential `"a"`, both destined to fail
authentication. -/
def Pdup : PoolParams :=
  ⟨fun _ => "a", fun _ => ProbeOutcome.authFail⟩

end StealthSSH

namespace StealthSSH

/-! ### Key-uniqueness lemmas for the ledger -/

lemma keys_upsert (l : Ledger) (r : AttemptRecord) :
    (upsert l r).keys =
      r.password :: (l.filter (fun x => x.password ≠ r.password)).map (fun x => x.password) := by
  simp [upsert, Ledger.keys]

lemma keyUnique_upsert (l : Ledger) (r : AttemptRecord) (h : KeyUnique l) :
    KeyUnique (upsert l r) := by
  unfold KeyUnique at *
  rw [keys_upsert]
  refine List.Nodup.cons ?_ ?_
  · intro hmem
    rcases List.mem_map.mp hmem with ⟨x, hx, hkey⟩
    have := List.of_mem_filter hx
    simp only [decide_eq_true_eq] at this
    exact this hkey
  · exact List.Nodup.sublist
      (List.Sublist.map _ (List.filter_sublist l)) h

lemma lookup_upsert_self (l : Ledger) (r : AttemptRecord) :
    lookup (upsert l r) r.password = some r := by
  simp [lookup, upsert, List.find?]

lemma countP_upsert_self (l : Ledger) (r : AttemptRecord) :
    (upsert l r).countP (fun x => x.password = r.password) = 1 := by
  simp only [upsert, List.countP_cons]
  have : (l.filter (fun x => x.password ≠ r.password)).countP
      (fun x => x.password = r.password) = 0 := by
    rw [List.countP_eq_zero]
    intro x hx
    have := List.of_mem_filter hx
    simp only [decide_eq_true_eq] at this ⊢
    exact this
  simp [this]

end StealthSSH

namespace StealthSSH

/-! ### Behaviour of the loops once `found_password` is set -/

lemma test_password_found (st : TesterState) (h : st.found_password.isSome = true)
    (pw : String) (o : ProbeOutcome) (n : Nat) (w : WriteBehavior) :
    test_password st pw o n w = (st, some ⟨pw, false, none⟩, false) := by
  simp [test_password, h]

lemma submitLoop_found (outcome : String → ProbeOutcome) (wb : String → WriteBehavior)
    (now : Nat) (st : TesterState) (h : st.found_password.isSome = true)
    (passwords : List String) :
    submitLoop outcome wb now st passwords = (st, [], 0) := by
  cases passwords <;> simp [submitLoop, h]

lemma drainLoop_found (st : TesterState) (h : st.found_password.isSome = true)
    (f : Option AttemptResult) (rest : List (Option AttemptResult)) :
    drainLoop st (f :: rest) = Except.ok (st, st.found_password) := by
  simp [drainLoop, h]

lemma drainLoop_ledger :
    ∀ (futures : List (Option AttemptResult)) (st0 st2 : TesterState)
      (lf : Option String),
      drainLoop st0 futures = Except.ok (st2, lf) → st2.ledger = st0.ledger := by
  intro futures
  induction futures with
  | nil =>
    intro st0 st2 lf h
    simp [drainLoop] at h
    rw [h.1]
  | cons f rest ih =>
    intro st0 st2 lf h
    by_cases hf : st0.found_password.isSome = true
    · simp [drainLoop, hf] at h
      rw [h.1]
    · simp [drainLoop, hf] at h
      cases f with
      | none => simp at h
      | some r =>
        by_cases hs : r.success = true
        · simp [hs] at h
          rw [h.1.symm]
        · simp [hs] at h
          exact ih st0 st2 lf h

/-- C1: the ledger's key uniqueness is preserved by every upsert, and
upserting the same credential twice leaves exactly one record for that
credential, whose contents are those of the latest write. -/
theorem C1_ledger_dedup_and_idempotent_upsert
    (l : Ledger) (r₁ r₂ : AttemptRecord)
    (hu : KeyUnique l) (hk : r₁.password = r₂.password) :
    KeyUnique (upsert l r₁) ∧
    KeyUnique (upsert (upsert l r₁) r₂) ∧
    lookup (upsert (upsert l r₁) r₂) r₂.password = some r₂ ∧
    lookup (upsert (upsert l r₁) r₂) r₁.password = some r₂ ∧
    (upsert (upsert l r₁) r₂).countP (fun x => x.password = r₂.password) = 1 := by
  refine ⟨keyUnique_upsert l r₁ hu,
          keyUnique_upsert _ r₂ (keyUnique_upsert l r₁ hu),
          lookup_upsert_self _ r₂,
          ?_,
          countP_upsert_self _ r₂⟩
  rw [hk]
  exact lookup_upsert_self _ r₂

/-- Witness for C1 at a concrete ledger and pair of conflicting writes. -/
theorem C1_ledger_dedup_and_idempotent_upsert_witness :
    KeyUnique ([] : Ledger) ∧ ("pw" : String) = "pw" ∧
    lookup (upsert (upsert ([] : Ledger) ⟨"pw", Status.failed, 1, some "Autenticação falhou"⟩)
        ⟨"pw", Status.success, 2, none⟩) "pw" =
      some ⟨"pw", Status.success, 2, none⟩ := by
  refine ⟨by decide, rfl, ?_⟩
  exact (C1_ledger_dedup_and_idempotent_upsert ([] : Ledger)
    ⟨"pw", Status.failed, 1, some "Autenticação falhou"⟩
    ⟨"pw", Status.success, 2, none⟩ (by decide) rfl).2.2.1

/-- C2: a run started with the resume flag set returns the recorded Success
credential and issues zero probes whenever the ledger holds a Success
record, whatever candidates were supplied. -/
theorem C2_resume_short_circuits_on_recorded_success
    (st : TesterState) (passwords : List String) (outcome : String → ProbeOutcome)
    (wb : String → WriteBehavior) (now : Nat) (p : String)
    (h : findSuccess st.ledger = some p) :
    test_passwords_stealth st passwords true outcome wb now =
      Except.ok (st, some p, 0) := by
  simp [test_passwords_stealth, h]

/-- Witness for C2: one Success record for `"x"`, two untried candidates. -/
theorem C2_resume_short_circuits_on_recorded_success_witness :
    findSuccess [⟨"x", Status.success, 0, none⟩] = some "x" ∧
    test_passwords_stealth ⟨none, 0, [⟨"x", Status.success, 0, none⟩]⟩ ["a", "b"] true
      (fun _ => ProbeOutcome.ok) (fun _ => noFault) 7 =
      Except.ok (⟨none, 0, [⟨"x", Status.success, 0, none⟩]⟩, some "x", 0) := by
  refine ⟨by decide, ?_⟩
  exact C2_resume_short_circuits_on_recorded_success
    ⟨none, 0, [⟨"x", Status.success, 0, none⟩]⟩ ["a", "b"]
    (fun _ => ProbeOutcome.ok) (fun _ => noFault) 7 "x" (by decide)

/-- C3: on a resumed run with no recorded Success, the candidate list that
reaches the pool is exactly the supplied list minus the already-attempted
credentials, as a subsequence of the supplied list (order preserved). -/
theorem C3_resume_filters_attempted_preserving_order
    (st : TesterState) (passwords : List String) (outcome : String → ProbeOutcome)
    (wb : String → WriteBehavior) (now : Nat)
    (h : findSuccess st.ledger = none) :
    (∀ p, p ∈ effectiveCandidates st.ledger passwords ↔
        (p ∈ passwords ∧ p ∉ listAttempted st.ledger)) ∧
    (effectiveCandidates st.ledger passwords).Sublist passwords ∧
    test_passwords_stealth st passwords true outcome wb now =
      (if (effectiveCandidates st.ledger passwords).isEmpty then
        Except.ok (st, none, 0)
      else runCore st (effectiveCandidates st.ledger passwords) outcome wb now) := by
  refine ⟨?_, List.filter_sublist _, ?_⟩
  · intro p
    simp [effectiveCandidates, List.mem_filter]
  · simp [test_passwords_stealth, h, effectiveCandidates]

/-- Witness for C3: ledger has tried `"a"` and `"c"`, supplied list
`["a", "b", "c", "d"]` filters to `["b", "d"]`. -/
theorem C3_resume_filters_attempted_preserving_order_witness :
    findSuccess [⟨"a", Status.failed, 0, some "Autenticação falhou"⟩,
        ⟨"c", Status.error, 1, some "timeout"⟩] = none ∧
    ("b" ∈ effectiveCandidates
        [⟨"a", Status.failed, 0, some "Autenticação falhou"⟩,
         ⟨"c", Status.error, 1, some "timeout"⟩] ["a", "b", "c", "d"] ↔
      ("b" ∈ ["a", "b", "c", "d"] ∧
        "b" ∉ listAttempted [⟨"a", Status.failed, 0, some "Autenticação falhou"⟩,
          ⟨"c", Status.error, 1, some "timeout"⟩])) := by
  refine ⟨by decide, ?_⟩
  exact (C3_resume_filters_attempted_preserving_order
    ⟨none, 0, [⟨"a", Status.failed, 0, some "Autenticação falhou"⟩,
      ⟨"c", Status.error, 1, some "timeout"⟩]⟩ ["a", "b", "c", "d"]
    (fun _ => ProbeOutcome.ok) (fun _ => noFault) 3 (by decide)).1 "b"

/-- C4: with no success found yet, the pre-dispatch ledger lookup decides
the action: a Success record sets `found_password` without dispatching; any
other record is skipped as a duplicate without dispatching, without touching
the state; only an absent record dispatches a probe. -/
theorem C4_predispatch_lookup_decides
    (st : TesterState) (pw : String) (outcome : ProbeOutcome) (now : Nat)
    (wb : WriteBehavior) (hf : st.found_password = none) :
    (∀ r, lookup st.ledger pw = some r → r.status = Status.success →
        test_password st pw outcome now wb =
          ({ st with found_password := some pw }, some ⟨pw, true, none⟩, false)) ∧
    (∀ r, lookup st.ledger pw = some r → ¬ r.status = Status.success →
        test_password st pw outcome now wb =
          (st, some ⟨pw, false, some "Já tentado"⟩, false)) ∧
    (lookup st.ledger pw = none →
        (test_password st pw outcome now wb).2.2 = true) := by
  refine ⟨?_, ?_, ?_⟩
  · intro r hr hs
    simp [test_password, hf, hr, hs]
  · intro r hr hs
    simp [test_password, hf, hr, hs]
  · intro hl
    rcases wb with ⟨ff, hw, m⟩
    cases outcome <;> cases ff <;> cases hw <;> simp [test_password, hf, hl]

/-- Witness for C4 (duplicate-skip arm): a failed record for `"pw"` makes
`test_password` skip without dispatch. -/
theorem C4_predispatch_lookup_decides_witness :
    (⟨none, 0, [⟨"pw", Status.failed, 0, some "Autenticação falhou"⟩]⟩ :
        TesterState).found_password = none ∧
    test_password ⟨none, 0, [⟨"pw", Status.failed, 0, some "Autenticação falhou"⟩]⟩
        "pw" ProbeOutcome.ok 5 noFault =
      (⟨none, 0, [⟨"pw", Status.failed, 0, some "Autenticação falhou"⟩]⟩,
       some ⟨"pw", false, some "Já tentado"⟩, false) := by
  refine ⟨rfl, ?_⟩
  exact (C4_predispatch_lookup_decides
    ⟨none, 0, [⟨"pw", Status.failed, 0, some "Autenticação falhou"⟩]⟩
    "pw" ProbeOutcome.ok 5 noFault rfl).2.1
    ⟨"pw", Status.failed, 0, some "Autenticação falhou"⟩ (by decide) (by decide)

/-- C5: on a dispatched probe a Success outcome resets the
consecutive-failure counter to 0, an AuthFailed outcome leaves it unchanged,
a ProbeError outcome increments it by one; and the pre-probe delay range is
[0.1s, 0.5s] when the counter is at most 5 and [1.0s, 2.0s] otherwise. -/
theorem C5_throttle_counter_and_delay_ranges
    (st : TesterState) (pw d : String) (now : Nat)
    (hf : st.found_password = none) (hl : lookup st.ledger pw = none) :
    (test_password st pw ProbeOutcome.ok now noFault).1.consecutive_failures = 0 ∧
    (test_password st pw ProbeOutcome.authFail now noFault).1.consecutive_failures
      = st.consecutive_failures ∧
    (test_password st pw (ProbeOutcome.probeError d) now noFault).1.consecutive_failures
      = st.consecutive_failures + 1 ∧
    (∀ cf : Nat, cf ≤ 5 → simulate_delay_range cf = (1/10, 1/2)) ∧
    (∀ cf : Nat, ¬ cf ≤ 5 → simulate_delay_range cf = (1, 2)) := by
  refine ⟨?_, ?_, ?_, ?_, ?_⟩
  · simp [test_password, hf, hl, noFault]
  · simp [test_password, hf, hl, noFault]
  · simp [test_password, hf, hl, noFault]
  · intro cf h
    simp [simulate_delay_range, Nat.not_lt.mpr h]
  · intro cf h
    simp [simulate_delay_range, Nat.lt_of_not_le h]

/-- Witness for C5 at an empty ledger and counter value 3. -/
theorem C5_throttle_counter_and_delay_ranges_witness :
    (test_password ⟨none, 3, []⟩ "pw" ProbeOutcome.ok 0 noFault).1.consecutive_failures
      = 0 ∧
    (test_password ⟨none, 3, []⟩ "pw" (ProbeOutcome.probeError "timeout") 0
        noFault).1.consecutive_failures = 4 ∧
    simulate_delay_range 3 = (1/10, 1/2) := by
  have h := C5_throttle_counter_and_delay_ranges ⟨none, 3, []⟩ "pw" "timeout" 0
    rfl (by decide)
  exact ⟨h.1, h.2.2.1, h.2.2.2.1 3 (by decide)⟩

/-- C6: once `found_password` is set, `test_password` returns before probing,
the submission loop submits nothing further, the drain loop stops at its
first check and returns the found credential unchanged whatever the
remaining futures hold, and draining never modifies the ledger (so outcomes
already written by in-flight workers persist without affecting the terminal
result). -/
theorem C6_found_stops_submission_and_drain
    (outcome : String → ProbeOutcome) (wb : String → WriteBehavior) (now : Nat)
    (st : TesterState) (h : st.found_password.isSome = true) :
    (∀ pw o n w, test_password st pw o n w = (st, some ⟨pw, false, none⟩, false)) ∧
    (∀ passwords, submitLoop outcome wb now st passwords = (st, [], 0)) ∧
    (∀ f rest, drainLoop st (f :: rest) = Except.ok (st, st.found_password)) ∧
    (∀ (st0 : TesterState) futures st2 lf,
        drainLoop st0 futures = Except.ok (st2, lf) → st2.ledger = st0.ledger) := by
  exact ⟨fun pw o n w => test_password_found st h pw o n w,
         fun pws => submitLoop_found outcome wb now st h pws,
         fun f rest => drainLoop_found st h f rest,
         fun st0 fs st2 lf hh => drainLoop_ledger fs st0 st2 lf hh⟩

/-- Witness for C6: with `found_password = some "w"` nothing is submitted
and draining a pending failure future returns `"w"`. -/
theorem C6_found_stops_submission_and_drain_witness :
    ((⟨some "w", 0, []⟩ : TesterState).found_password.isSome = true) ∧
    submitLoop (fun _ => ProbeOutcome.ok) (fun _ => noFault) 0 ⟨some "w", 0, []⟩
      ["a", "b"] = (⟨some "w", 0, []⟩, [], 0) ∧
    drainLoop ⟨some "w", 0, []⟩ [some ⟨"a", false, none⟩] =
      Except.ok (⟨some "w", 0, []⟩, some "w") := by
  have h := C6_found_stops_submission_and_drain (fun _ => ProbeOutcome.ok)
    (fun _ => noFault) 0 ⟨some "w", 0, []⟩ rfl
  exact ⟨rfl, h.2.1 ["a", "b"], h.2.2.1 (some ⟨"a", false, none⟩) []⟩

/-- C7 (counterexample): a failing INSERT inside the
`AuthenticationException` handler (lines 122‑126) propagates out of
`test_password` — no sibling handler catches it — and `future.result()` at
line 226 re-raises it with `found_password` still unset, crashing the run:
at a single AuthFailed candidate whose ledger write fails, `runCore` ends
in `Except.error`, so a durable-write failure can crash the run. -/
theorem C7_counterexample_handler_write_failure_crashes :
    ¬ writeFailureNeverCrashesRun := by
  intro h
  have h2 := h ⟨none, 0, []⟩ ["pw"] (fun _ => ProbeOutcome.authFail)
    (fun _ => (⟨true, false, "disk I/O error"⟩ : WriteBehavior)) 0
  have h3 : runCore ⟨none, 0, []⟩ ["pw"] (fun _ => ProbeOutcome.authFail)
      (fun _ => (⟨true, false, "disk I/O error"⟩ : WriteBehavior)) 0 =
      Except.error "exception re-raised by future.result" := rfl
  rw [h3] at h2
  simp [isFatal] at h2

/-- C7 (amended): a Success-path ledger write failure is contained:
`found_password` is set before the write (line 109 precedes line 113), the
generic `except Exception` handler absorbs the raising INSERT, and the run
still terminates in Found with that credential after one probe — even when
the recovery write fails as well, because the drain loop re-checks
`found_password` before calling `future.result()`.  A failing write inside
the AuthFailed handler instead propagates and crashes the run. -/
theorem C7_amended_success_write_failure_contained
    (st : TesterState) (pw : String) (rest : List String)
    (outcome : String → ProbeOutcome) (wb : String → WriteBehavior) (now : Nat)
    (hf : st.found_password = none) (hl : lookup st.ledger pw = none)
    (hw : (wb pw).firstFails = true) :
    (outcome pw = ProbeOutcome.ok →
      (test_password st pw (outcome pw) now (wb pw)).1.found_password = some pw ∧
      ∃ st2, runCore st (pw :: rest) outcome wb now =
          Except.ok (st2, some pw, 1) ∧ st2.found_password = some pw) ∧
    (outcome pw = ProbeOutcome.authFail →
      runCore st [pw] outcome wb now =
        Except.error "exception re-raised by future.result") := by
  constructor
  · intro ho
    cases hwb : wb pw with
    | mk ff hfl m =>
      rw [hwb] at hw
      simp only at hw
      subst hw
      cases hfl with
      | false =>
        have ht : test_password st pw (outcome pw) now (wb pw) =
            (⟨some pw, 1, upsert st.ledger ⟨pw, Status.error, now, some m⟩⟩,
             some ⟨pw, false, some m⟩, true) := by
          simp [test_password, hf, hl, ho, hwb]
        have hfound : (⟨some pw, 1,
            upsert st.ledger ⟨pw, Status.error, now, some m⟩⟩ :
              TesterState).found_password.isSome = true := rfl
        have hsub : submitLoop outcome wb now st (pw :: rest) =
            (⟨some pw, 1, upsert st.ledger ⟨pw, Status.error, now, some m⟩⟩,
             [some ⟨pw, false, some m⟩], 1) := by
          rw [submitLoop, ht]
          simp [hf, submitLoop_found outcome wb now _ hfound rest]
        refine ⟨by rw [← hwb, ht],
          ⟨⟨some pw, 1, upsert st.ledger ⟨pw, Status.error, now, some m⟩⟩, ?_, rfl⟩⟩
        rw [runCore, hsub]
        simp [drainLoop_found _ hfound]
      | true =>
        have ht : test_password st pw (outcome pw) now (wb pw) =
            (⟨some pw, 1, st.ledger⟩, none, true) := by
          simp [test_password, hf, hl, ho, hwb]
        have hfound : (⟨some pw, 1, st.ledger⟩ :
            TesterState).found_password.isSome = true := rfl
        have hsub : submitLoop outcome wb now st (pw :: rest) =
            (⟨some pw, 1, st.ledger⟩, [none], 1) := by
          rw [submitLoop, ht]
          simp [hf, submitLoop_found outcome wb now _ hfound rest]
        refine ⟨by rw [← hwb, ht], ⟨⟨some pw, 1, st.ledger⟩, ?_, rfl⟩⟩
        rw [runCore, hsub]
        simp [drainLoop_found _ hfound]
  · intro ho
    have ht : test_password st pw (outcome pw) now (wb pw) = (st, none, true) := by
      simp [test_password, hf, hl, ho, hw]
    have hsub : submitLoop outcome wb now st [pw] = (st, [none], 1) := by
      rw [submitLoop, ht]
      simp [hf, submitLoop]
    rw [runCore, hsub]
    simp [drainLoop, hf]

/-- Any upsert of a record whose error detail is present exactly when its
status is not Success preserves that property of the ledger. -/
lemma errorDetailMatches_upsert (l : Ledger) (r : AttemptRecord)
    (h : ErrorDetailMatchesStatus l)
    (hr : r.detail.isSome = true ↔ r.status ≠ Status.success) :
    ErrorDetailMatchesStatus (upsert l r) := by
  intro x hx
  rcases List.mem_cons.mp hx with rfl | hx'
  · exact hr
  · exact h x (List.mem_of_mem_filter hx')

/-- C8 (counterexample): the claim that error detail is present only on
ProbeError records is false — an AuthFailed attempt writes a failed record
carrying the error detail `"Autenticação falhou"` (source lines 122‑126). -/
theorem C8_counterexample_authfail_record_has_detail :
    ¬ ErrorOnlyForProbeError
      ((test_password ⟨none, 0, []⟩ "pw" ProbeOutcome.authFail 3 noFault).1.ledger) := by
  decide

/-- C8 (amended): every record written by `test_password` carries an error
detail exactly when its status is not Success: Success records carry none,
while both AuthFailed and ProbeError records carry one. -/
theorem C8_amended_detail_absent_iff_success
    (st : TesterState) (pw : String) (o : ProbeOutcome) (now : Nat)
    (wb : WriteBehavior) (h : ErrorDetailMatchesStatus st.ledger) :
    ErrorDetailMatchesStatus ((test_password st pw o now wb).1.ledger) := by
  by_cases hf : st.found_password.isSome = true
  · simpa [test_password, hf] using h
  · cases hlk : lookup st.ledger pw with
    | some r =>
      by_cases hs : r.status = Status.success
      · simpa [test_password, hf, hlk, hs] using h
      · simpa [test_password, hf, hlk, hs] using h
    | none =>
      rcases wb with ⟨ff, hw, m⟩
      cases o with
      | ok =>
        cases ff with
        | false =>
          simp only [test_password, hf, hlk, Bool.false_eq_true, if_false]
          exact errorDetailMatches_upsert _ _ h (by simp)
        | true =>
          cases hw with
          | false =>
            simp only [test_password, hf, hlk, Bool.false_eq_true, if_false, if_true]
            exact errorDetailMatches_upsert _ _ h (by simp)
          | true =>
            simpa [test_password, hf, hlk] using h
      | authFail =>
        cases ff with
        | false =>
          simp only [test_password, hf, hlk, Bool.false_eq_true, if_false]
          exact errorDetailMatches_upsert _ _ h (by simp)
        | true =>
          simpa [test_password, hf, hlk] using h
      | probeError d =>
        cases ff with
        | false =>
          simp only [test_password, hf, hlk, Bool.false_eq_true, if_false]
          exact errorDetailMatches_upsert _ _ h (by simp)
        | true =>
          simpa [test_password, hf, hlk] using h

/-- Witness for the amended C8 at an AuthFailed probe over an empty ledger. -/
theorem C8_amended_detail_absent_iff_success_witness :
    ErrorDetailMatchesStatus ([] : Ledger) ∧
    ErrorDetailMatchesStatus
      ((test_password ⟨none, 0, []⟩ "pw" ProbeOutcome.authFail 3 noFault).1.ledger) := by
  refine ⟨by decide, ?_⟩
  exact C8_amended_detail_absent_iff_success ⟨none, 0, []⟩ "pw"
    ProbeOutcome.authFail 3 noFault (by decide)

/-- C9 (counterexample): an empty candidate list does not abort the run —
with a readable config, readable password file, readable ledger, a present
target and no candidates, `main_flow` completes normally returning no
credential, so not every invalid startup input is fatal. -/
theorem C9_counterexample_empty_list_not_fatal : ¬ allStartupInputsFatal := by
  intro h
  have h2 := h (some "host") (some "user") [] true [] false
    (fun _ => ProbeOutcome.authFail) (fun _ => noFault) 0 (Or.inr (Or.inl rfl))
  have h3 : main_flow true (some "host") (some "user") true [] true []
      false (fun _ => ProbeOutcome.authFail) (fun _ => noFault) 0 =
      Except.ok (none, 0) := rfl
  rw [h3] at h2
  simp [isFatal] at h2

/-- C9 (amended): a missing target key and an unreadable ledger database are
fatal at startup, before any probing; an empty candidate list is not fatal —
the run proceeds, dispatches zero probes, and returns with no credential or
the previously recorded one. -/
theorem C9_amended_fatal_except_empty_list
    (server username : Option String) (passwords : List String)
    (ledgerReadable : Bool) (ledger0 : Ledger) (resume : Bool)
    (outcome : String → ProbeOutcome) (wb : String → WriteBehavior) (now : Nat) :
    isFatal (main_flow true none username true passwords ledgerReadable
      ledger0 resume outcome wb now) = true ∧
    isFatal (main_flow true server username true passwords false
      ledger0 resume outcome wb now) = true ∧
    (∀ h u, ∃ res, main_flow true (some h) (some u) true [] true ledger0
      resume outcome wb now = Except.ok (res, 0)) := by
  refine ⟨?_, ?_, ?_⟩
  · cases ledgerReadable <;> simp [main_flow, isFatal]
  · simp [main_flow, isFatal]
  · intro hn un
    cases resume with
    | false =>
      exact ⟨none, rfl⟩
    | true =>
      cases hfs : findSuccess ledger0 with
      | none =>
        exact ⟨none, by
          simp [main_flow, test_passwords_stealth, initTester, hfs,
            effectiveCandidates]⟩
      | some p =>
        exact ⟨some p, by
          simp [main_flow, test_passwords_stealth, initTester, hfs]⟩

/-! ### Lock discipline of the worker pool -/

lemma updPC_self (f : Fin 2 → WPC) (i : Fin 2) (v : WPC) : updPC f i v i = v := by
  simp [updPC]

lemma updPC_other (f : Fin 2 → WPC) (i j : Fin 2) (v : WPC) (h : j ≠ i) :
    updPC f i v j = f j := by
  simp [updPC, h]

/-- One step preserves the lock-ownership invariant. -/
lemma mutex_step (P : PoolParams) {s s' : MState} {i : Fin 2}
    (hs : Step P s i s')
    (ih : ∀ k, inLockedRegion (s.pc k) = true → s.lockOwner = some k) :
    ∀ k, inLockedRegion (s'.pc k) = true → s'.lockOwner = some k := by
  cases hs with
  | checkFoundSet c hpc hf =>
    intro k hk
    dsimp only at hk ⊢
    by_cases hki : k = i
    · subst hki
      rw [updPC_self] at hk
      simp [inLockedRegion] at hk
    · rw [updPC_other _ _ _ _ hki] at hk
      exact ih k hk
  | checkFoundClear hpc hf =>
    intro k hk
    dsimp only at hk ⊢
    by_cases hki : k = i
    · subst hki
      rw [updPC_self] at hk
      simp [inLockedRegion] at hk
    · rw [updPC_other _ _ _ _ hki] at hk
      exact ih k hk
  | acquire hpc hl =>
    intro k hk
    dsimp only at hk ⊢
    by_cases hki : k = i
    · subst hki
      rfl
    · rw [updPC_other _ _ _ _ hki] at hk
      have hcontra := ih k hk
      rw [hl] at hcontra
      exact absurd hcontra (by simp)
  | dedupSuccess r hpc hr2 hs2 =>
    intro k hk
    dsimp only at hk ⊢
    by_cases hki : k = i
    · subst hki
      rw [updPC_self] at hk
      simp [inLockedRegion] at hk
    · rw [updPC_other _ _ _ _ hki] at hk
      have h1 := ih k hk
      have h2 := ih i (by rw [hpc]; rfl)
      rw [h1] at h2
      exact absurd (Option.some.inj h2) hki
  | dedupDuplicate r hpc hr2 hs2 =>
    intro k hk
    dsimp only at hk ⊢
    by_cases hki : k = i
    · subst hki
      rw [updPC_self] at hk
      simp [inLockedRegion] at hk
    · rw [updPC_other _ _ _ _ hki] at hk
      have h1 := ih k hk
      have h2 := ih i (by rw [hpc]; rfl)
      rw [h1] at h2
      exact absurd (Option.some.inj h2) hki
  | dedupAbsent hpc hr2 =>
    intro k hk
    dsimp only at hk ⊢
    by_cases hki : k = i
    · subst hki
      exact ih k (by rw [hpc]; rfl)
    · rw [updPC_other _ _ _ _ hki] at hk
      exact ih k hk
  | delayDone hpc =>
    intro k hk
    dsimp only at hk ⊢
    by_cases hki : k = i
    · subst hki
      exact ih k (by rw [hpc]; rfl)
    · rw [updPC_other _ _ _ _ hki] at hk
      exact ih k hk
  | probeOk hpc ho =>
    intro k hk
    dsimp only at hk ⊢
    by_cases hki : k = i
    · subst hki
      exact ih k (by rw [hpc]; rfl)
    · rw [updPC_other _ _ _ _ hki] at hk
      exact ih k hk
  | probeAuthFail hpc ho =>
    intro k hk
    dsimp only at hk ⊢
    by_cases hki : k = i
    · subst hki
      rw [updPC_self] at hk
      simp [inLockedRegion] at hk
    · rw [updPC_other _ _ _ _ hki] at hk
      have h1 := ih k hk
      have h2 := ih i (by rw [hpc]; rfl)
      rw [h1] at h2
      exact absurd (Option.some.inj h2) hki
  | probeErr d hpc ho =>
    intro k hk
    dsimp only at hk ⊢
    by_cases hki : k = i
    · subst hki
      rw [updPC_self] at hk
      simp [inLockedRegion] at hk
    · rw [updPC_other _ _ _ _ hki] at hk
      have h1 := ih k hk
      have h2 := ih i (by rw [hpc]; rfl)
      rw [h1] at h2
      exact absurd (Option.some.inj h2) hki
  | writeOk hpc =>
    intro k hk
    dsimp only at hk ⊢
    by_cases hki : k = i
    · subst hki
      rw [updPC_self] at hk
      simp [inLockedRegion] at hk
    · rw [updPC_other _ _ _ _ hki] at hk
      have h1 := ih k hk
      have h2 := ih i (by rw [hpc]; rfl)
      rw [h1] at h2
      exact absurd (Option.some.inj h2) hki
  | writeFailRec hpc =>
    intro k hk
    dsimp only at hk ⊢
    by_cases hki : k = i
    · subst hki
      rw [updPC_self] at hk
      simp [inLockedRegion] at hk
    · rw [updPC_other _ _ _ _ hki] at hk
      exact ih k hk
  | writeErrRec hpc =>
    intro k hk
    dsimp only at hk ⊢
    by_cases hki : k = i
    · subst hki
      rw [updPC_self] at hk
      simp [inLockedRegion] at hk
    · rw [updPC_other _ _ _ _ hki] at hk
      exact ih k hk

/-- Inductive invariant: a worker whose program counter lies between lock
acquisition and lock release is the lock's owner. -/
lemma mutex_invariant (P : PoolParams) (l0 : Ledger) :
    ∀ s, Reachable P l0 s →
      ∀ i, inLockedRegion (s.pc i) = true → s.lockOwner = some i := by
  intro s h
  induction h with
  | init =>
    intro i hi
    simp [initMState, inLockedRegion] at hi
  | step hr hs ih =>
    exact mutex_step _ hs ih

/-- Both workers of `Pdup` can pass the dedup check for the shared
credential `"a"` and probe it, worker 0 going first down the
authentication-failure path, whose write-back runs after lock release. -/
lemma dup_trace : DuplicateProbePossible Pdup [] := by
  have h0 : Reachable Pdup [] (initMState []) := Reachable.init
  have h1 := Reachable.step h0 (Step.checkFoundClear _ 0 rfl rfl)
  have h2 := Reachable.step h1 (Step.acquire _ 0 rfl rfl)
  have h3 := Reachable.step h2 (Step.dedupAbsent _ 0 rfl rfl)
  have h4 := Reachable.step h3 (Step.delayDone _ 0 rfl)
  have h5 := Reachable.step h4 (Step.probeAuthFail _ 0 rfl rfl)
  have h6 := Reachable.step h5 (Step.checkFoundClear _ 1 rfl rfl)
  have h7 := Reachable.step h6 (Step.acquire _ 1 rfl rfl)
  have h8 := Reachable.step h7 (Step.dedupAbsent _ 1 rfl rfl)
  have h9 := Reachable.step h8 (Step.delayDone _ 1 rfl)
  have h10 := Reachable.step h9 (Step.probeAuthFail _ 1 rfl rfl)
  exact ⟨_, h10, by simp, by simp⟩

/-- C10 (counterexample): the claim is false at the concrete pool `P0`
(credentials `"a"`, `"b"`, both failing authentication) over an empty
ledger: after worker 0 acquires the lock, passes the dedup check and enters
the throttle delay, worker 1 — unfinished, at lock acquisition — has no
enabled step, because the sleep happens inside `with self.connection_lock`. -/
theorem C10_counterexample_delay_blocks_pool : ¬ throttleAndDedupClaim := by
  intro hclaim
  have hd := hclaim.1 P0 []
  have h0 : Reachable P0 [] (initMState []) := Reachable.init
  have h1 := Reachable.step h0 (Step.checkFoundClear _ 0 rfl rfl)
  have h2 := Reachable.step h1 (Step.acquire _ 0 rfl rfl)
  have h3 := Reachable.step h2 (Step.dedupAbsent _ 0 rfl rfl)
  have h4 := Reachable.step h3 (Step.checkFoundClear _ 1 rfl rfl)
  have hen := hd _ h4 0 rfl 1 (by decide) rfl
  obtain ⟨s', hstep⟩ := hen
  cases hstep <;> simp_all [updPC, initMState, P0]

/-- C10 (amended): the throttle delay runs while holding the global
connection lock, so at most one worker at a time can be anywhere between
the dedup check and the success write (in particular a sleeping worker
blocks the other from probing); yet, because the failure-path write-back
runs after the lock is released, both workers can pass the dedup check for
the same credential before either writes back, probing it twice. -/
theorem C10_amended_lock_serializes_probes :
    (∀ (P : PoolParams) (l0 : Ledger) s, Reachable P l0 s →
        ∀ i, inLockedRegion (s.pc i) = true → s.lockOwner = some i) ∧
    (∀ (P : PoolParams) (l0 : Ledger) s, Reachable P l0 s →
        ∀ i j, inLockedRegion (s.pc i) = true →
          inLockedRegion (s.pc j) = true → i = j) ∧
    (∃ (P : PoolParams) (l0 : Ledger), P.pw 0 = P.pw 1 ∧
        DuplicateProbePossible P l0) := by
  refine ⟨fun P l0 s h i hi => mutex_invariant P l0 s h i hi, ?_, ⟨Pdup, [], rfl, dup_trace⟩⟩
  intro P l0 s h i j hi hj
  have h1 := mutex_invariant P l0 s h i hi
  have h2 := mutex_invariant P l0 s h j hj
  rw [h1] at h2
  exact Option.some.inj h2

/-- Witness for the amended C10: a concrete reachable state with worker 0
inside the locked region, where the theorem pins the lock on worker 0. -/
theorem C10_amended_lock_serializes_probes_witness :
    ∃ s, Reachable P0 [] s ∧ inLockedRegion (s.pc 0) = true ∧
      s.lockOwner = some 0 := by
  have h0 : Reachable P0 [] (initMState []) := Reachable.init
  have h1 := Reachable.step h0 (Step.checkFoundClear _ 0 rfl rfl)
  have h2 := Reachable.step h1 (Step.acquire _ 0 rfl rfl)
  exact ⟨_, h2, rfl, C10_amended_lock_serializes_probes.1 P0 [] _ h2 0 rfl⟩

/-- Witness for the amended C7: empty ledger, candidate `"pw"`
authenticates, and both its Success write and the recovery write fail; the
run still returns Found `"pw"` after one probe. -/
theorem C7_amended_success_write_failure_contained_witness :
    ∃ st2, runCore ⟨none, 0, []⟩ ["pw", "other"] (fun _ => ProbeOutcome.ok)
        (fun _ => (⟨true, true, "disk I/O error"⟩ : WriteBehavior)) 4 =
        Except.ok (st2, some "pw", 1) ∧
      st2.found_password = some "pw" := by
  exact ((C7_amended_success_write_failure_contained ⟨none, 0, []⟩ "pw" ["other"]
    (fun _ => ProbeOutcome.ok)
    (fun _ => (⟨true, true, "disk I/O error"⟩ : WriteBehavior)) 4
    rfl (by decide) rfl).1 rfl).2

end StealthSSH
